import Mathlib

/-!
Verification of the generation-orchestration core of the gen-slides
repository (src/App.tsx, src/types.ts): the retry policy, the
design-system derivation and update operations, the outline planner with
its primary/fallback model strategy and response parsing, the per-slide
image-generation orchestrator with its auto-chain policy, and the slide
collection mutations.

Modelling conventions:
  * Every remote `generateContent` call is modelled through an oracle
    `Nat → Except String String` giving, for each successive call index,
    either the response text (`response.text`, the empty string standing
    for an absent text part) or a thrown transport error.  The backend is
    out of scope (spec §1), so responses are unconstrained.
  * Asynchronous functions returning `Promise<T>` become functions
    returning `Except String T` (a rejected promise is `.error`).
  * `setTimeout`-driven recursion of the auto-chain is sequentialised:
    the source runs one synthesis at a time (spec §5), so a chained call
    simply follows its predecessor.  A `fuel` argument bounds the
    recursion depth; the source recursion advances the target index at
    every step, so fuel ≥ deck length is always enough.
  * JavaScript numbers holding slide ids are modelled as `Nat` (ids are
    positive integers per the data model).
-/

/-- `SlideStyle` from src/types.ts. -/
inductive SlideStyle where
  | CONCISE : SlideStyle
  | DETAILED : SlideStyle
deriving DecidableEq, Repr

/-- `SlidePlan` from src/types.ts.  Optional fields become `Option`. -/
structure SlidePlan where
  id : Nat
  title : String
  content : String
  visualDescription : String
  userPromptOverride : Option String := none
  referenceImage : Option String := none
  generatedImageUrl : Option String := none
  isGenerating : Bool
deriving DecidableEq, Repr

/-- Outcome of one run of `retryOperation`: the final result, the number
of times the wrapped operation was invoked, and the list of waits (in
milliseconds) performed between attempts. -/
structure RetryRun (ε α : Type) where
  result : Except ε α
  invocations : Nat
  delays : List Nat
deriving Repr

/-- `retryOperation` from src/App.tsx lines 819–830.  The operation is
modelled as a function of the attempt index (`op k` is the outcome of the
k-th invocation, counted from `k0`).  On failure with `retries > 0` it
waits `delayMs`, doubles the delay, and recurses; once retries are
exhausted the last error is rethrown unchanged.  Source defaults:
`retries = 3`, `delayMs = 3000`. -/
def retryOperation {ε α : Type} (op : Nat → Except ε α) :
    Nat → Nat → Nat → RetryRun ε α
  | retries, delayMs, k0 =>
    match op k0 with
    | .ok a => ⟨.ok a, 1, []⟩
    | .error e =>
      match retries with
      | 0 => ⟨.error e, 1, []⟩
      | r + 1 =>
        let rest := retryOperation op r (delayMs * 2) (k0 + 1)
        ⟨rest.result, rest.invocations + 1, delayMs :: rest.delays⟩

/-- The geometric delay schedule produced by `retryOperation` when every
attempt fails: `retries` waits, starting at `delayMs` and doubling. -/
def retryDelays : Nat → Nat → List Nat
  | _, 0 => []
  | delayMs, r + 1 => delayMs :: retryDelays (delayMs * 2) r

theorem retryOperation_succeeds {ε α : Type} (op : Nat → Except ε α) (a : α)
    (N : Nat) :
    ∀ (retries delayMs k0 : Nat),
      (∀ j, j < N → ∃ e, op (k0 + j) = .error e) →
      op (k0 + N) = .ok a → N ≤ retries →
      retryOperation op retries delayMs k0 = ⟨.ok a, N + 1, retryDelays delayMs N⟩ := by
  induction N with
  | zero =>
    intro retries delayMs k0 _ hok _
    unfold retryOperation
    simp only [Nat.add_zero] at hok
    rw [hok]
    simp [retryDelays]
  | succ n ih =>
    intro retries delayMs k0 herr hok hle
    obtain ⟨e, he⟩ := herr 0 (Nat.succ_pos n)
    obtain ⟨r, rfl⟩ : ∃ r, retries = r + 1 :=
      ⟨retries - 1, by omega⟩
    unfold retryOperation
    simp only [Nat.add_zero] at he
    rw [he]
    have hrec := ih r (delayMs * 2) (k0 + 1)
      (fun j hj => by
        have := herr (j + 1) (by omega)
        simpa [Nat.add_assoc, Nat.add_comm 1 j] using this)
      (by simpa [Nat.add_assoc, Nat.add_comm 1 n] using hok)
      (by omega)
    dsimp only
    rw [hrec]
    simp [retryDelays]

theorem retryOperation_exhausts {ε α : Type} (op : Nat → Except ε α)
    (f : Nat → ε) :
    ∀ (retries delayMs k0 : Nat),
      (∀ j, op j = .error (f j)) →
      retryOperation op retries delayMs k0 =
        ⟨.error (f (k0 + retries)), retries + 1, retryDelays delayMs retries⟩ := by
  intro retries
  induction retries with
  | zero =>
    intro delayMs k0 herr
    unfold retryOperation
    rw [herr k0]
    rfl
  | succ r ih =>
    intro delayMs k0 herr
    unfold retryOperation
    rw [herr k0]
    dsimp only
    rw [ih (delayMs * 2) (k0 + 1) herr]
    simp [retryDelays, RetryRun.mk.injEq, Nat.add_comm, Nat.add_assoc, Nat.add_left_comm]

/-- Every run of `retryOperation` invokes the operation at least once. -/
theorem retryOperation_invocations_pos {ε α : Type} (op : Nat → Except ε α)
    (retries delayMs k0 : Nat) :
    1 ≤ (retryOperation op retries delayMs k0).invocations := by
  unfold retryOperation
  cases op k0 with
  | ok a => simp
  | error e =>
    cases retries with
    | zero => simp
    | succ r => simp

/-- Claim C4.  With the source defaults (`retries = 3`, `delayMs = 3000`,
i.e. at most 4 attempts): if the operation fails for the first `N`
invocations and succeeds on invocation `N`, and the budget allows more
than `N` attempts (`N ≤ retries`), then `retryOperation` returns the
success value after exactly `N + 1` invocations; and if the operation
always fails, the default run performs exactly 4 invocations, waiting
3000 ms, 6000 ms and 12000 ms between them, and rethrows the error of the
final (fourth) attempt unchanged. -/
theorem retryOperation_spec {ε α : Type} (op : Nat → Except ε α)
    (f : Nat → ε) (a : α) (N retries : Nat) :
    ((∀ j, j < N → ∃ e, op j = .error e) → op N = .ok a → N ≤ retries →
      (retryOperation op retries 3000 0).result = .ok a ∧
      (retryOperation op retries 3000 0).invocations = N + 1) ∧
    ((∀ j, op j = .error (f j)) →
      retryOperation op 3 3000 0 = ⟨.error (f 3), 4, [3000, 6000, 12000]⟩) := by
  constructor
  · intro herr hok hle
    have h := retryOperation_succeeds op a N retries 3000 0
      (by simpa using herr) (by simpa using hok) hle
    rw [h]
    exact ⟨rfl, rfl⟩
  · intro herr
    have h := retryOperation_exhausts op f 3 3000 0 herr
    simpa [retryDelays] using h

/-- Witness for C4 at concrete inputs: an operation failing once then
succeeding returns the success value in 2 invocations; an operation that
always fails with error `"boom"` exhausts the default budget in 4
invocations with delays 3000, 6000, 12000 and rethrows `"boom"`. -/
theorem retryOperation_spec_witness :
    (retryOperation (fun k => if k = 0 then .error "e0" else .ok 7) 3 3000 0).result
        = .ok 7 ∧
    (retryOperation (fun k => if k = 0 then .error "e0" else .ok 7) 3 3000 0).invocations
        = 2 ∧
    retryOperation (fun _ => (.error "boom" : Except String Nat)) 3 3000 0 =
      ⟨.error "boom", 4, [3000, 6000, 12000]⟩ := by
  refine ⟨?_, ?_, ?_⟩
  · exact (retryOperation_spec (fun k => if k = 0 then .error "e0" else .ok 7)
      (fun _ => "e0") 7 1 3).1
      (fun j hj => ⟨"e0", by interval_cases j <;> simp⟩) (by simp) (by omega) |>.1
  · exact (retryOperation_spec (fun k => if k = 0 then .error "e0" else .ok 7)
      (fun _ => "e0") 7 1 3).1
      (fun j hj => ⟨"e0", by interval_cases j <;> simp⟩) (by simp) (by omega) |>.2
  · exact (retryOperation_spec (fun _ => (.error "boom" : Except String Nat))
      (fun _ => "boom") 0 0 3).2 (fun _ => rfl)

/-- A JavaScript value produced by `JSON.parse`.  Object fields are kept
in textual order; duplicate keys are resolved at access time (last one
wins, as in `JSON.parse`).  Numeric literals are modelled as integers:
the planning payloads in scope carry only integral slide ids. -/
inductive JValue where
  | null : JValue
  | bool : Bool → JValue
  | num : Int → JValue
  | str : String → JValue
  | arr : List JValue → JValue
  | obj : List (String × JValue) → JValue
deriving Repr

/-- Whitespace skipping for the JSON reader. -/
def skipWs : List Char → List Char
  | c :: cs => if c = ' ' ∨ c = '\n' ∨ c = '\t' ∨ c = '\r' then skipWs cs else c :: cs
  | [] => []

/-- JSON string literal body (after the opening quote), with the basic
escape sequences; `\uXXXX` escapes are outside the modelled fragment. -/
def parseStringAux : List Char → List Char → Option (String × List Char)
  | acc, '"' :: cs => some (String.mk acc.reverse, cs)
  | acc, '\\' :: c :: cs =>
    if c = '"' ∨ c = '\\' ∨ c = '/' then parseStringAux (c :: acc) cs
    else if c = 'n' then parseStringAux ('\n' :: acc) cs
    else if c = 't' then parseStringAux ('\t' :: acc) cs
    else if c = 'r' then parseStringAux ('\r' :: acc) cs
    else none
  | acc, c :: cs => parseStringAux (c :: acc) cs
  | _, [] => none

/-- Leading decimal digits of a character stream. -/
def takeDigits : List Char → List Char × List Char
  | c :: cs =>
    if c.isDigit then
      let (ds, rest) := takeDigits cs
      (c :: ds, rest)
    else ([], c :: cs)
  | [] => ([], [])

/-- Value of a digit string. -/
def digitsToNat (ds : List Char) : Nat :=
  ds.foldl (fun n c => 10 * n + (c.toNat - '0'.toNat)) 0

/-- Parser state: reading a value, the elements of an array (with the
elements read so far), or the members of an object. -/
inductive PMode where
  | val : PMode
  | arrItems : List JValue → PMode
  | objItems : List (String × JValue) → PMode

/-- Recursive-descent JSON reader, fuelled to bound recursion depth.
Models the browser `JSON.parse` on the fragment exercised by the
planner: null, booleans, integral numbers, strings, arrays, objects. -/
def parseRec : Nat → PMode → List Char → Option (JValue × List Char)
  | 0, _, _ => none
  | fuel + 1, .val, cs =>
    match skipWs cs with
    | '"' :: rest =>
      match parseStringAux [] rest with
      | some (s, rest2) => some (.str s, rest2)
      | none => none
    | '\x7b' :: rest =>
      match skipWs rest with
      | '\x7d' :: rest2 => some (.obj [], rest2)
      | cs2 => parseRec fuel (.objItems []) cs2
    | '[' :: rest =>
      match skipWs rest with
      | ']' :: rest2 => some (.arr [], rest2)
      | cs2 => parseRec fuel (.arrItems []) cs2
    | 't' :: 'r' :: 'u' :: 'e' :: rest => some (.bool true, rest)
    | 'f' :: 'a' :: 'l' :: 's' :: 'e' :: rest => some (.bool false, rest)
    | 'n' :: 'u' :: 'l' :: 'l' :: rest => some (.null, rest)
    | '-' :: rest =>
      match takeDigits rest with
      | ([], _) => none
      | (ds, rest2) => some (.num (-(Int.ofNat (digitsToNat ds))), rest2)
    | c :: rest =>
      if c.isDigit then
        match takeDigits (c :: rest) with
        | ([], _) => none
        | (ds, rest2) => some (.num (Int.ofNat (digitsToNat ds)), rest2)
      else none
    | [] => none
  | fuel + 1, .arrItems acc, cs =>
    match parseRec fuel .val cs with
    | none => none
    | some (v, rest) =>
      match skipWs rest with
      | ',' :: rest2 => parseRec fuel (.arrItems (v :: acc)) rest2
      | ']' :: rest2 => some (.arr (v :: acc).reverse, rest2)
      | _ => none
  | fuel + 1, .objItems acc, cs =>
    match skipWs cs with
    | '"' :: rest =>
      match parseStringAux [] rest with
      | none => none
      | some (k, rest2) =>
        match skipWs rest2 with
        | ':' :: rest3 =>
          match parseRec fuel .val rest3 with
          | none => none
          | some (v, rest4) =>
            match skipWs rest4 with
            | ',' :: rest5 => parseRec fuel (.objItems ((k, v) :: acc)) rest5
            | '\x7d' :: rest5 => some (.obj ((k, v) :: acc).reverse, rest5)
            | _ => none
        | _ => none
    | _ => none

/-- `JSON.parse`: reads one value and requires the remainder to be
whitespace.  `none` stands for a thrown `SyntaxError`. -/
def jsonParse (s : String) : Option JValue :=
  match parseRec (2 * s.toList.length + 2) .val s.toList with
  | some (v, rest) => if (skipWs rest).isEmpty then some v else none
  | none => none

/-- JavaScript property access `item.key` on a parsed JSON value.
Reading a property of `null` throws a `TypeError`; reading a missing
property, or a property of a non-object primitive, yields `undefined`
(`none`).  With duplicate keys the last occurrence wins, as in objects
built by `JSON.parse`. -/
def jsField (v : JValue) (key : String) : Except String (Option JValue) :=
  match v with
  | .null => .error "TypeError: cannot read properties of null"
  | .obj fields => .ok (((fields.reverse).find? (fun kv => kv.1 == key)).map (fun kv => kv.2))
  | _ => .ok none

/-- The object literal produced for each raw record by `parseResponse`
in src/App.tsx lines 971–977: the four named properties are copied from
the raw record (possibly `undefined`), `isGenerating` is set to `false`,
and no `generatedImageUrl` property is created. -/
structure ProjSlide where
  id : Option JValue
  title : Option JValue
  content : Option JValue
  visualDescription : Option JValue
  isGenerating : Bool
  generatedImageUrl : Option String
deriving Repr

/-- Projection of one parsed array element, mirroring the `.map` body of
`parseResponse` (property reads in source order; a thrown `TypeError`
aborts the whole `.map`). -/
def projectItem (item : JValue) : Except String ProjSlide :=
  match jsField item "id" with
  | .error e => .error e
  | .ok i =>
    match jsField item "title" with
    | .error e => .error e
    | .ok t =>
      match jsField item "content" with
      | .error e => .error e
      | .ok c =>
        match jsField item "visualDescription" with
        | .error e => .error e
        | .ok v => .ok ⟨i, t, c, v, false, none⟩

/-- Exception-propagating map of `projectItem` over the parsed array. -/
def projectItems : List JValue → Except String (List ProjSlide)
  | [] => .ok []
  | a :: as =>
    match projectItem a with
    | .error e => .error e
    | .ok p =>
      match projectItems as with
      | .error e => .error e
      | .ok ps => .ok (p :: ps)

/-- Leftmost, non-overlapping global replacement over a character list;
the replacement text is not rescanned.  This is the behaviour of the
JavaScript `String.prototype.replace` with a global literal pattern.
The fuel argument only bounds recursion depth (one unit per input
character suffices, since every step consumes at least one). -/
def replaceAllAux (p : Char) (ps rep : List Char) : Nat → List Char → List Char
  | _, [] => []
  | 0, cs => cs
  | fuel + 1, c :: cs =>
    if c = p ∧ cs.take ps.length = ps then
      rep ++ replaceAllAux p ps rep fuel (cs.drop ps.length)
    else c :: replaceAllAux p ps rep fuel cs

/-- Global string replacement (empty patterns do not occur here). -/
def replaceAll (s pat rep : String) : String :=
  match pat.toList with
  | [] => s
  | p :: ps => String.mk (replaceAllAux p ps rep.toList s.toList.length s.toList)

/-- Whether a character is trimmed by the JavaScript `String.prototype.trim`
(the ASCII fragment; the texts in scope contain no exotic whitespace). -/
def isTrimmedChar (c : Char) : Bool :=
  c = ' ' ∨ c = '\t' ∨ c = '\n' ∨ c = '\r' ∨ c = '\x0b' ∨ c = '\x0c'

/-- JavaScript `String.prototype.trim`. -/
def jsTrim (s : String) : String :=
  String.mk ((((s.toList.dropWhile isTrimmedChar).reverse).dropWhile isTrimmedChar).reverse)

/-- Code-fence stripping from `parseResponse`: global replacement of
"```json" and "```", then trim. -/
def cleanFences (text : String) : String :=
  jsTrim (replaceAll (replaceAll text "```json" "") "```" "")

/-- `parseResponse` from src/App.tsx lines 965–978: substitute "[]" for
an absent/empty text, strip code fences, `JSON.parse`, require an array,
and project every element.  Any thrown error is an `.error`. -/
def parseResponse (text : String) : Except String (List ProjSlide) :=
  let raw := if text = "" then "[]" else text
  match jsonParse (cleanFences raw) with
  | none => .error "SyntaxError: JSON parse failure"
  | some v =>
    match v with
    | .arr items => projectItems items
    | _ => .error "Output is not an array"

/-- Every record the projection accepts carries `isGenerating = false`
and no generated image. -/
theorem projectItem_fields (item : JValue) (p : ProjSlide)
    (h : projectItem item = .ok p) :
    p.isGenerating = false ∧ p.generatedImageUrl = none := by
  unfold projectItem at h
  cases h1 : jsField item "id" with
  | error e => rw [h1] at h; cases h
  | ok i =>
    rw [h1] at h
    cases h2 : jsField item "title" with
    | error e => rw [h2] at h; cases h
    | ok t =>
      rw [h2] at h
      cases h3 : jsField item "content" with
      | error e => rw [h3] at h; cases h
      | ok c =>
        rw [h3] at h
        cases h4 : jsField item "visualDescription" with
        | error e => rw [h4] at h; cases h
        | ok v =>
          rw [h4] at h
          cases h
          exact ⟨rfl, rfl⟩

/-- `projectItems` only produces records accepted by `projectItem`. -/
theorem projectItems_fields :
    ∀ (items : List JValue) (l : List ProjSlide),
      projectItems items = .ok l →
      ∀ p ∈ l, p.isGenerating = false ∧ p.generatedImageUrl = none := by
  intro items
  induction items with
  | nil =>
    intro l h p hp
    cases h
    simp at hp
  | cons a as ih =>
    intro l h p hp
    unfold projectItems at h
    cases h1 : projectItem a with
    | error e => rw [h1] at h; cases h
    | ok x =>
      rw [h1] at h
      cases h2 : projectItems as with
      | error e => rw [h2] at h; cases h
      | ok xs =>
        rw [h2] at h
        cases h
        rcases List.mem_cons.mp hp with rfl | hmem
        · exact projectItem_fields a p h1
        · exact ih xs h2 p hmem

/-- Claim C6 (amended).  After substituting "[]" for an absent text and
stripping code-fence markup: a raw response whose JSON parse fails makes
the plan attempt fail with a parse error, and a response parsing to a
non-array makes it fail with the "Output is not an array" error; every
successfully projected element has `isGenerating = false` and no
generated image.  (Missing `title`/`content`/`visualDescription` fields,
however, are not validated — see the counterexample.) -/
theorem parseResponse_validation (text : String) :
    (jsonParse (cleanFences (if text = "" then "[]" else text)) = none →
      parseResponse text = .error "SyntaxError: JSON parse failure") ∧
    (∀ v, jsonParse (cleanFences (if text = "" then "[]" else text)) = some v →
      (∀ xs, v ≠ .arr xs) → parseResponse text = .error "Output is not an array") ∧
    (∀ l, parseResponse text = .ok l →
      ∀ p ∈ l, p.isGenerating = false ∧ p.generatedImageUrl = none) := by
  refine ⟨?_, ?_, ?_⟩
  · intro h
    unfold parseResponse
    dsimp only
    rw [h]
  · intro v h hna
    unfold parseResponse
    dsimp only
    rw [h]
    cases v with
    | arr xs => exact absurd rfl (hna xs)
    | null => rfl
    | bool b => rfl
    | num n => rfl
    | str s => rfl
    | obj fs => rfl
  · intro l h p hp
    unfold parseResponse at h
    dsimp only at h
    cases hj : jsonParse (cleanFences (if text = "" then "[]" else text)) with
    | none => rw [hj] at h; cases h
    | some v =>
      rw [hj] at h
      cases v with
      | arr items => exact projectItems_fields items l h p hp
      | null => cases h
      | bool b => cases h
      | num n => cases h
      | str s => cases h
      | obj fs => cases h

/-- Witness for the amended C6 at concrete inputs: a non-JSON response
and a JSON-object (non-array) response both fail, and the record
projected from a well-formed response has `isGenerating = false` and no
generated image. -/
theorem parseResponse_validation_witness :
    parseResponse "not json" = .error "SyntaxError: JSON parse failure" ∧
    parseResponse "\x7b\"a\":1\x7d" = .error "Output is not an array" ∧
    (ProjSlide.mk (some (.num 1)) (some (.str "T")) (some (.str "C"))
        (some (.str "V")) false none).isGenerating = false := by
  refine ⟨?_, ?_, ?_⟩
  · exact (parseResponse_validation "not json").1 rfl
  · exact (parseResponse_validation "\x7b\"a\":1\x7d").2.1
      (.obj [("a", .num 1)]) rfl (fun xs h => JValue.noConfusion h)
  · exact ((parseResponse_validation
        "[\x7b\"id\": 1, \"title\": \"T\", \"content\": \"C\", \"visualDescription\": \"V\"\x7d]").2.2
      [⟨some (.num 1), some (.str "T"), some (.str "C"), some (.str "V"), false, none⟩]
      rfl _ (List.mem_singleton.mpr rfl)).1

/-- Counterexample to claim C6 as stated: a parsed record missing all of
`title`, `content` and `visualDescription` does NOT make the plan attempt
fail — `parseResponse` succeeds, silently projecting the missing
required fields as absent (`undefined`) values. -/
theorem parseResponse_missing_fields_cex :
    parseResponse "[\x7b\"id\": 1\x7d]" =
      .ok [⟨some (.num 1), none, none, none, false, none⟩] := rfl

/-- Hardcoded default substituted by `generateDesignSystem` when the
model returns empty output. -/
def defaultDesignSystem : String := "Modern clean business style with blue accents."

/-- `generateDesignSystem` from src/App.tsx lines 836–877: one retried
text-generation call whose empty output falls back to the default
phrase.  The prompt (aesthetic direction, layout-mode directive) feeds
only the remote backend, which the oracle abstracts, so the parameters
`customStyle` and `styleMode` do not influence the modelled outcome. -/
def generateDesignSystem (customStyle : String) (styleMode : SlideStyle)
    (oracle : Nat → Except String String) : RetryRun String String :=
  retryOperation (fun k =>
    match oracle k with
    | .ok t => .ok (if t = "" then defaultDesignSystem else t)
    | .error e => .error e) 3 3000 0

/-- `updateDesignSystem` from src/App.tsx lines 882–910: one retried
text-generation call; empty output yields the unmodified current design
system. -/
def updateDesignSystem (currentSystem adjustment : String)
    (oracle : Nat → Except String String) : RetryRun String String :=
  retryOperation (fun k =>
    match oracle k with
    | .ok t => .ok (if t = "" then currentSystem else t)
    | .error e => .error e) 3 3000 0

/-- `refinePrompt` from src/App.tsx lines 1071–1078: a single remote
call with no retry wrapper; empty output yields the input prompt.  The
second component counts the remote calls issued (always exactly one). -/
def refinePrompt (currentPrompt : String)
    (oracle : Nat → Except String String) : Except String String × Nat :=
  match oracle 0 with
  | .ok t => (.ok (if t = "" then currentPrompt else t), 1)
  | .error e => (.error e, 1)

/-- `handleUpdateSlide` from src/App.tsx lines 145–150, specialised to
the `visualDescription` field (the only field the refinement path
writes). -/
def handleUpdateSlideVisualDescription (slides : List SlidePlan) (id : Nat)
    (value : String) : List SlidePlan :=
  slides.map fun s => if s.id == id then { s with visualDescription := value } else s

/-- `handleRefinePrompt` from src/App.tsx lines 257–270: look up the
slide, refine its visual description remotely, overwrite the field on
success; on failure only an alert fires and the field is untouched. -/
def handleRefinePrompt (slides : List SlidePlan) (id : Nat)
    (oracle : Nat → Except String String) : List SlidePlan :=
  match slides.find? (fun s => s.id == id) with
  | none => slides
  | some slide =>
    match (refinePrompt slide.visualDescription oracle).1 with
    | .ok refined => handleUpdateSlideVisualDescription slides id refined
    | .error _ => slides

/-- The design-system step of `handleGeneratePlan`, src/App.tsx lines
110–121: trim the custom style prompt; when the trimmed text is
non-empty use it as the design system, otherwise derive one remotely.
The second component counts the remote derivation calls issued. -/
def handleGeneratePlanDesignStep (customStylePrompt : String)
    (selectedStyle : SlideStyle) (oracle : Nat → Except String String) :
    Except String String × Nat :=
  let designSystem := jsTrim customStylePrompt
  if designSystem = "" then
    let run := generateDesignSystem customStylePrompt selectedStyle oracle
    (run.result, run.invocations)
  else (.ok designSystem, 0)

/-- The id minted by `handleAddSlide`: `Math.max(...ids) + 1` on a
non-empty deck, `1` on an empty one.  On a non-empty list of naturals
the 0-seeded fold equals the JavaScript `Math.max` of the ids. -/
def newSlideId (slides : List SlidePlan) : Nat :=
  if slides.length > 0 then (slides.map (fun s => s.id)).foldl max 0 + 1 else 1

/-- `handleAddSlide` from src/App.tsx lines 152–165: append one slide
with the freshly minted id and the placeholder texts; no remote call is
involved (the function is pure deck manipulation). -/
def handleAddSlide (slides : List SlidePlan) : List SlidePlan :=
  slides ++ [{ id := newSlideId slides,
               title := "新幻灯片",
               content := "在此输入正文内容...",
               visualDescription := "Describe the visual structure for this slide in English...",
               isGenerating := false }]

theorem foldl_max_init_le (l : List Nat) : ∀ a : Nat, a ≤ l.foldl max a := by
  induction l with
  | nil => intro a; simp
  | cons b bs ih =>
    intro a
    calc a ≤ max a b := le_max_left a b
    _ ≤ bs.foldl max (max a b) := ih (max a b)

theorem mem_le_foldl_max (l : List Nat) : ∀ (a x : Nat), x ∈ l → x ≤ l.foldl max a := by
  induction l with
  | nil => intro a x hx; cases hx
  | cons b bs ih =>
    intro a x hx
    rcases List.mem_cons.mp hx with rfl | hmem
    · calc x ≤ max a x := le_max_right a x
      _ ≤ bs.foldl max (max a x) := foldl_max_init_le bs (max a x)
    · exact ih (max a b) x hmem

/-- Claim C9.  `handleAddSlide` appends exactly one new slide whose id is
the maximum existing id plus one (or 1 on an empty deck), so the new id
is strictly greater than every existing id and never duplicates one;
existing slides are left unchanged and no remote call is modelled (the
operation is a pure function of the deck). -/
theorem handleAddSlide_spec (slides : List SlidePlan) :
    handleAddSlide slides =
      slides ++ [{ id := newSlideId slides,
                   title := "新幻灯片",
                   content := "在此输入正文内容...",
                   visualDescription := "Describe the visual structure for this slide in English...",
                   isGenerating := false }] ∧
    (slides = [] → newSlideId slides = 1) ∧
    (slides ≠ [] →
      newSlideId slides = (slides.map (fun s => s.id)).foldl max 0 + 1) ∧
    (∀ t ∈ slides, t.id < newSlideId slides) ∧
    newSlideId slides ∉ slides.map (fun s => s.id) ∧
    (handleAddSlide slides).take slides.length = slides := by
  refine ⟨rfl, ?_, ?_, ?_, ?_, ?_⟩
  · intro h
    subst h
    rfl
  · intro h
    unfold newSlideId
    rw [if_pos (List.length_pos.mpr h)]
  · intro t ht
    unfold newSlideId
    rw [if_pos (List.length_pos.mpr (List.ne_nil_of_mem ht))]
    have : t.id ≤ (slides.map (fun s => s.id)).foldl max 0 :=
      mem_le_foldl_max _ 0 t.id (List.mem_map.mpr ⟨t, ht, rfl⟩)
    omega
  · intro hmem
    obtain ⟨t, ht, hid⟩ := List.mem_map.mp hmem
    have hlt : t.id < newSlideId slides := by
      unfold newSlideId
      rw [if_pos (List.length_pos.mpr (List.ne_nil_of_mem ht))]
      have : t.id ≤ (slides.map (fun s => s.id)).foldl max 0 :=
        mem_le_foldl_max _ 0 t.id (List.mem_map.mpr ⟨t, ht, rfl⟩)
      omega
    omega
  · unfold handleAddSlide
    rw [List.take_append_of_le_length (le_refl _)]
    exact List.take_length slides

/-- Witness for C9 at a concrete deck: appending to a one-slide deck with
id 3 yields that deck with a new final slide of id 4. -/
theorem handleAddSlide_spec_witness :
    handleAddSlide [⟨3, "t", "c", "v", none, none, none, false⟩] =
      [⟨3, "t", "c", "v", none, none, none, false⟩,
       { id := newSlideId [⟨3, "t", "c", "v", none, none, none, false⟩],
         title := "新幻灯片",
         content := "在此输入正文内容...",
         visualDescription := "Describe the visual structure for this slide in English...",
         isGenerating := false }] ∧
    (3 : Nat) < newSlideId [⟨3, "t", "c", "v", none, none, none, false⟩] := by
  have h := handleAddSlide_spec [⟨3, "t", "c", "v", none, none, none, false⟩]
  exact ⟨h.1, h.2.2.2.1 _ (List.mem_singleton.mpr rfl)⟩

/-- Counterexample to claim C7 as stated: the custom style text `" "`
(a single space) is non-empty, yet the design-system step issues one
remote derivation call and does not use the text verbatim — the source
trims the custom style prompt and derives remotely whenever the trimmed
text is empty. -/
theorem designStep_whitespace_cex :
    (" " : String) ≠ "" ∧
    handleGeneratePlanDesignStep " " SlideStyle.CONCISE (fun _ => .ok "X") =
      (.ok "X", 1) := by
  exact ⟨by decide, rfl⟩

/-- Claim C7 (amended).  For every custom style text whose trimmed form
is non-empty, the design-system step uses that trimmed text as the design
system and issues zero remote calls; whenever the trimmed form is empty
(including whitespace-only non-empty inputs) at least one remote
derivation call is issued. -/
theorem designStep_short_circuit (customStylePrompt : String)
    (selectedStyle : SlideStyle) (oracle : Nat → Except String String) :
    (jsTrim customStylePrompt ≠ "" →
      handleGeneratePlanDesignStep customStylePrompt selectedStyle oracle =
        (.ok (jsTrim customStylePrompt), 0)) ∧
    (jsTrim customStylePrompt = "" →
      1 ≤ (handleGeneratePlanDesignStep customStylePrompt selectedStyle oracle).2) := by
  constructor
  · intro h
    unfold handleGeneratePlanDesignStep
    dsimp only
    rw [if_neg h]
  · intro h
    unfold handleGeneratePlanDesignStep
    dsimp only
    rw [if_pos h]
    exact retryOperation_invocations_pos _ 3 3000 0

/-- Witness for the amended C7: a custom style with non-blank content
short-circuits with zero calls; a whitespace-only custom style issues at
least one call. -/
theorem designStep_short_circuit_witness :
    handleGeneratePlanDesignStep "dark gold" SlideStyle.DETAILED (fun _ => .ok "X") =
      (.ok (jsTrim "dark gold"), 0) ∧
    1 ≤ (handleGeneratePlanDesignStep " " SlideStyle.CONCISE (fun _ => .ok "X")).2 := by
  constructor
  · exact (designStep_short_circuit "dark gold" SlideStyle.DETAILED (fun _ => .ok "X")).1
      (by decide)
  · exact (designStep_short_circuit " " SlideStyle.CONCISE (fun _ => .ok "X")).2
      (by decide)

/-- Claim C8.  Whenever the remote model answers the update request with
empty output, `updateDesignSystem` resolves to the current design system
unchanged (never a blank design system), after a single invocation. -/
theorem updateDesignSystem_empty_output (currentSystem adjustment : String)
    (oracle : Nat → Except String String) (h : oracle 0 = .ok "") :
    (updateDesignSystem currentSystem adjustment oracle).result = .ok currentSystem ∧
    (updateDesignSystem currentSystem adjustment oracle).invocations = 1 := by
  unfold updateDesignSystem retryOperation
  rw [h]
  exact ⟨rfl, rfl⟩

/-- Witness for C8: with a stub returning empty text, updating the design
system "navy and gold" is a no-op resolved in one call. -/
theorem updateDesignSystem_empty_output_witness :
    (updateDesignSystem "navy and gold" "warmer" (fun _ => .ok "")).result =
      .ok "navy and gold" ∧
    (updateDesignSystem "navy and gold" "warmer" (fun _ => .ok "")).invocations = 1 :=
  updateDesignSystem_empty_output "navy and gold" "warmer" (fun _ => .ok "") rfl

/-- Claim C10.  `refinePrompt` performs a single unretried call and, on
empty model output, returns the input prompt unchanged; consequently
`handleRefinePrompt` overwrites `visualDescription` with its existing
value, leaving the deck observably unchanged (ids are unique per the
data-model invariant). -/
theorem refinePrompt_empty_output (p : String) (slides : List SlidePlan)
    (id : Nat) (oracle : Nat → Except String String)
    (hnd : (slides.map (fun s => s.id)).Nodup) (h : oracle 0 = .ok "") :
    refinePrompt p oracle = (.ok p, 1) ∧
    handleRefinePrompt slides id oracle = slides := by
  have href : ∀ q : String, refinePrompt q oracle = (.ok q, 1) := by
    intro q
    unfold refinePrompt
    rw [h]
    rfl
  refine ⟨href p, ?_⟩
  unfold handleRefinePrompt
  cases hfind : slides.find? (fun s => s.id == id) with
  | none => rfl
  | some slide =>
    dsimp only
    rw [href slide.visualDescription]
    dsimp only
    have hmem := List.mem_of_find?_eq_some hfind
    have hid := List.find?_some hfind
    unfold handleUpdateSlideVisualDescription
    have : ∀ s ∈ slides,
        (if s.id == id then { s with visualDescription := slide.visualDescription } else s) = s := by
      intro s hs
      by_cases hsid : s.id == id
      · have hseq : s = slide := by
          apply List.inj_on_of_nodup_map hnd hs hmem
          have h1 : s.id = id := by simpa using hsid
          have h2 : slide.id = id := by simpa using hid
          simp [h1, h2]
        subst hseq
        rw [if_pos hsid]
      · rw [if_neg hsid]
    calc slides.map (fun s => if s.id == id then { s with visualDescription := slide.visualDescription } else s)
        = slides.map (fun s => s) := List.map_congr_left this
    _ = slides := List.map_id' slides

/-- Witness for C10 at a concrete deck and empty-output stub. -/
theorem refinePrompt_empty_output_witness :
    refinePrompt "a diagram" (fun _ => .ok "") = (.ok "a diagram", 1) ∧
    handleRefinePrompt [⟨1, "t", "c", "a diagram", none, none, none, false⟩] 1
      (fun _ => .ok "") = [⟨1, "t", "c", "a diagram", none, none, none, false⟩] := by
  have h := refinePrompt_empty_output "a diagram"
    [⟨1, "t", "c", "a diagram", none, none, none, false⟩] 1 (fun _ => .ok "")
    (by decide) rfl
  exact h

/-- JavaScript `inputText.substring(0, n)` (code units modelled as
characters; the payloads in scope are within the basic plane). -/
def jsSubstring (s : String) (n : Nat) : String :=
  String.mk (s.toList.take n)

/-- The variable parts of the planning prompt built by
`generateSlidePlan` (src/App.tsx lines 928–962): the defensively
truncated input text, the requested slide count, the style-mode density
instruction, and the design-system text.  The surrounding fixed template
text is constant, so two prompts are identical exactly when these parts
are. -/
structure PlanPrompt where
  inputText : String
  slideCount : Nat
  style : SlideStyle
  designSystem : String
deriving DecidableEq, Repr

/-- Prompt construction for one `plan` call, with the source's
15000-character defensive truncation of the input text. -/
def buildPlanPrompt (inputText : String) (slideCount : Nat)
    (style : SlideStyle) (designSystem : String) : PlanPrompt :=
  ⟨jsSubstring inputText 15000, slideCount, style, designSystem⟩

/-- Model identifier of the higher-capability planning tier. -/
def primaryModel : String := "gemini-3-pro-preview"

/-- Model identifier of the higher-stability fallback tier. -/
def fallbackModel : String := "gemini-2.5-flash"

/-- One remote planning call as issued: the model identifier and the
prompt sent. -/
structure PlanCall where
  model : String
  prompt : PlanPrompt
deriving DecidableEq, Repr

/-- Outcome of one tier inside a plan attempt: the remote call followed
by `parseResponse` on its text (both tiers share this code path). -/
def planTierOutcome (oracle : Nat → Except String String) (n : Nat) :
    Except String (List ProjSlide) :=
  match oracle n with
  | .ok t => parseResponse t
  | .error e => .error e

/-- One attempt of the closure passed to `retryOperation` by
`generateSlidePlan` (src/App.tsx lines 980–1003): try the primary tier;
on any failure (transport or parse) try the fallback tier once with the
identical prompt and identical parsing; the attempt fails only if the
fallback side fails too.  Returns the outcome, the next remote-call
index, and the calls issued by this attempt in order. -/
def planAttempt (oracle : Nat → Except String String) (prompt : PlanPrompt)
    (n : Nat) : Except String (List ProjSlide) × Nat × List PlanCall :=
  match planTierOutcome oracle n with
  | .ok plan => (.ok plan, n + 1, [⟨primaryModel, prompt⟩])
  | .error _ =>
    (planTierOutcome oracle (n + 1), n + 2,
      [⟨primaryModel, prompt⟩, ⟨fallbackModel, prompt⟩])

/-- `retryOperation` for operations that additionally thread the remote
call index and record the calls they issue (the closure wrapped by
`generateSlidePlan` issues one or two remote calls per attempt). -/
def retryOperationTr {ε α τ : Type} (op : Nat → Except ε α × Nat × List τ) :
    Nat → Nat → Nat → Except ε α × Nat × List τ
  | retries, delayMs, n =>
    match h : op n with
    | (.ok a, n', calls) => (.ok a, n', calls)
    | (.error e, n', calls) =>
      match retries with
      | 0 => (.error e, n', calls)
      | r + 1 =>
        let rest := retryOperationTr op r (delayMs * 2) n'
        (rest.1, rest.2.1, calls ++ rest.2.2)

/-- `generateSlidePlan` from src/App.tsx lines 916–1004: the
primary-then-fallback attempt wrapped in `retryOperation` with the
default budget. -/
def generateSlidePlan (oracle : Nat → Except String String)
    (inputText : String) (slideCount : Nat) (style : SlideStyle)
    (designSystem : String) : Except String (List ProjSlide) × Nat × List PlanCall :=
  retryOperationTr
    (planAttempt oracle (buildPlanPrompt inputText slideCount style designSystem))
    3 3000 0

/-- Placeholder call used only as the out-of-range default of `getD`. -/
def defaultPlanCall : PlanCall := ⟨"", ⟨"", 0, SlideStyle.CONCISE, ""⟩⟩

/-- Formalisation of the ordering asserted by claim C5: every fallback
call is preceded by at least 4 primary calls (the primary tier's full
default retry budget) in the issued-call trace. -/
def primaryBudgetExhaustedFirst (calls : List PlanCall) : Prop :=
  ∀ i, i < calls.length → (calls.getD i defaultPlanCall).model = fallbackModel →
    4 ≤ ((calls.take i).filter (fun c => c.model == primaryModel)).length

instance (calls : List PlanCall) : Decidable (primaryBudgetExhaustedFirst calls) := by
  unfold primaryBudgetExhaustedFirst
  infer_instance

theorem planAttempt_calls (oracle : Nat → Except String String)
    (P : PlanPrompt) (n : Nat) :
    ∀ c ∈ (planAttempt oracle P n).2.2,
      c.prompt = P ∧ (c.model = primaryModel ∨ c.model = fallbackModel) := by
  unfold planAttempt
  cases hpo : planTierOutcome oracle n with
  | ok plan =>
    intro c hc
    simp at hc
    subst hc
    exact ⟨rfl, Or.inl rfl⟩
  | error e =>
    intro c hc
    simp at hc
    rcases hc with rfl | rfl
    · exact ⟨rfl, Or.inl rfl⟩
    · exact ⟨rfl, Or.inr rfl⟩

theorem retryOperationTr_calls {ε α τ : Type}
    (op : Nat → Except ε α × Nat × List τ) (Q : τ → Prop)
    (hop : ∀ n, ∀ c ∈ (op n).2.2, Q c) :
    ∀ (retries delayMs n : Nat),
      ∀ c ∈ (retryOperationTr op retries delayMs n).2.2, Q c := by
  intro retries
  induction retries with
  | zero =>
    intro delayMs n c hc
    unfold retryOperationTr at hc
    rcases ho : op n with ⟨res, n2, calls⟩
    rw [ho] at hc
    have hcalls : ∀ x ∈ calls, Q x := by
      intro x hx
      have := hop n x
      rw [ho] at this
      exact this hx
    cases res with
    | ok a => exact hcalls c hc
    | error e => exact hcalls c hc
  | succ r ih =>
    intro delayMs n c hc
    unfold retryOperationTr at hc
    rcases ho : op n with ⟨res, n2, calls⟩
    rw [ho] at hc
    have hcalls : ∀ x ∈ calls, Q x := by
      intro x hx
      have := hop n x
      rw [ho] at this
      exact this hx
    cases res with
    | ok a => exact hcalls c hc
    | error e =>
      dsimp only at hc
      rcases List.mem_append.mp hc with hl | hr
      · exact hcalls c hl
      · exact ih (delayMs * 2) n2 c hr

theorem planAttempt_fail (oracle : Nat → Except String String) (P : PlanPrompt)
    (h : ∀ m, ∃ e, oracle m = .error e) (n : Nat) :
    ∃ e, planAttempt oracle P n =
      (.error e, n + 2, [⟨primaryModel, P⟩, ⟨fallbackModel, P⟩]) := by
  obtain ⟨e1, h1⟩ := h n
  obtain ⟨e2, h2⟩ := h (n + 1)
  refine ⟨e2, ?_⟩
  unfold planAttempt planTierOutcome
  rw [h1, h2]

/-- Claim C5 (amended).  The fallback happens inside the single
retry-wrapped unit: every call of a `plan` run carries the identical
prompt and one of the two fixed model tiers; when the primary tier's
first attempt parses successfully the run returns it after exactly that
one call (first success wins); and when every remote call fails, the
run fails only after the shared budget of 4 attempts, each attempt
trying the primary tier once and then the fallback tier once, giving
the alternating 8-call trace. -/
theorem generateSlidePlan_two_tier (oracle : Nat → Except String String)
    (inputText : String) (slideCount : Nat) (style : SlideStyle)
    (designSystem : String) :
    (∀ c ∈ (generateSlidePlan oracle inputText slideCount style designSystem).2.2,
      c.prompt = buildPlanPrompt inputText slideCount style designSystem ∧
      (c.model = primaryModel ∨ c.model = fallbackModel)) ∧
    (∀ t plan, oracle 0 = .ok t → parseResponse t = .ok plan →
      generateSlidePlan oracle inputText slideCount style designSystem =
        (.ok plan, 1,
          [⟨primaryModel, buildPlanPrompt inputText slideCount style designSystem⟩])) ∧
    ((∀ m, ∃ e, oracle m = .error e) →
      (∃ e, (generateSlidePlan oracle inputText slideCount style designSystem).1 =
        .error e) ∧
      (generateSlidePlan oracle inputText slideCount style designSystem).2.2.map
          (fun c => c.model) =
        [primaryModel, fallbackModel, primaryModel, fallbackModel,
         primaryModel, fallbackModel, primaryModel, fallbackModel]) := by
  refine ⟨?_, ?_, ?_⟩
  · exact retryOperationTr_calls _ _
      (planAttempt_calls oracle (buildPlanPrompt inputText slideCount style designSystem))
      3 3000 0
  · intro t plan h0 hp
    have hA : planAttempt oracle
        (buildPlanPrompt inputText slideCount style designSystem) 0 =
        (.ok plan, 1,
          [⟨primaryModel, buildPlanPrompt inputText slideCount style designSystem⟩]) := by
      unfold planAttempt planTierOutcome
      rw [h0]
      dsimp only
      rw [hp]
    unfold generateSlidePlan retryOperationTr
    rw [hA]
  · intro hfail
    obtain ⟨e0, H0⟩ := planAttempt_fail oracle _ hfail 0
    obtain ⟨e1, H1⟩ := planAttempt_fail oracle _ hfail 2
    obtain ⟨e2, H2⟩ := planAttempt_fail oracle _ hfail 4
    obtain ⟨e3, H3⟩ := planAttempt_fail oracle _ hfail 6
    have hrun : generateSlidePlan oracle inputText slideCount style designSystem =
        (.error e3, 8,
          [⟨primaryModel, buildPlanPrompt inputText slideCount style designSystem⟩,
           ⟨fallbackModel, buildPlanPrompt inputText slideCount style designSystem⟩] ++
          ([⟨primaryModel, buildPlanPrompt inputText slideCount style designSystem⟩,
            ⟨fallbackModel, buildPlanPrompt inputText slideCount style designSystem⟩] ++
           ([⟨primaryModel, buildPlanPrompt inputText slideCount style designSystem⟩,
             ⟨fallbackModel, buildPlanPrompt inputText slideCount style designSystem⟩] ++
            [⟨primaryModel, buildPlanPrompt inputText slideCount style designSystem⟩,
             ⟨fallbackModel, buildPlanPrompt inputText slideCount style designSystem⟩]))) := by
      unfold generateSlidePlan
      unfold retryOperationTr
      rw [H0]
      dsimp only
      unfold retryOperationTr
      rw [H1]
      dsimp only
      unfold retryOperationTr
      rw [H2]
      dsimp only
      unfold retryOperationTr
      rw [H3]
    rw [hrun]
    exact ⟨⟨e3, rfl⟩, rfl⟩

/-- Witness for the amended C5: a first-call success returns after one
primary-tier call, and an always-failing backend produces the
8-call alternating trace with a failed result. -/
theorem generateSlidePlan_two_tier_witness :
    generateSlidePlan (fun _ => .ok "[]") "text" 2 SlideStyle.CONCISE "ds" =
      (.ok [], 1, [⟨primaryModel, buildPlanPrompt "text" 2 SlideStyle.CONCISE "ds"⟩]) ∧
    (∃ e, (generateSlidePlan (fun _ => .error "down") "text" 2 SlideStyle.CONCISE "ds").1 =
      .error e) := by
  constructor
  · exact (generateSlidePlan_two_tier (fun _ => .ok "[]") "text" 2
      SlideStyle.CONCISE "ds").2.1 "[]" [] rfl rfl
  · exact ((generateSlidePlan_two_tier (fun _ => .error "down") "text" 2
      SlideStyle.CONCISE "ds").2.2 (fun m => ⟨"down", rfl⟩)).1

/-- Counterexample to claim C5 as stated: with an always-failing backend
the issued-call trace alternates primary, fallback, primary, fallback …
— the fallback tier is already attempted after the very first primary
failure, so the primary tier does not exhaust its full retry-with-backoff
budget before the fallback tier is tried. -/
theorem generateSlidePlan_order_cex :
    (generateSlidePlan (fun _ => .error "boom") "content" 3 SlideStyle.CONCISE "ds").2.2.map
        (fun c => c.model) =
      [primaryModel, fallbackModel, primaryModel, fallbackModel,
       primaryModel, fallbackModel, primaryModel, fallbackModel] ∧
    primaryModel ≠ fallbackModel ∧
    ¬ primaryBudgetExhaustedFirst
        (generateSlidePlan (fun _ => .error "boom") "content" 3 SlideStyle.CONCISE "ds").2.2 := by
  refine ⟨rfl, by decide, by decide⟩

/-- Result of one `generateSingleSlideImage` call and the chained calls
it spawns: the deck afterwards, the ids for which a synthesis call was
issued (in call order), and the ids for which the failure alert fired. -/
structure OrchResult where
  slides : List SlidePlan
  log : List Nat
  alerts : List Nat
deriving DecidableEq, Repr

/-- JavaScript `Array.prototype.findIndex` (as an `Option` instead of
-1). -/
def jsFindIndex {α : Type} (p : α → Bool) : List α → Option Nat
  | [] => none
  | s :: rest => if p s then some 0 else (jsFindIndex p rest).map (· + 1)

/-- `generateSingleSlideImage` from src/App.tsx lines 182–255, the
auto-chain orchestrator, sequentialised (one synthesis in flight at a
time, spec §5; a `setTimeout`-chained call runs after its predecessor
completes).  `synth` abstracts the retried `generateSlideImage` call:
its outcome is the settled result after the synthesizer's own retry
budget.  `fuel` bounds the chain depth; the chain advances its target
index at every step, so `fuel ≥ deck length` is always sufficient.
Mirrors the source: the skip test (auto-chain only) uses the current
target's image/generating flags; the optimistic `isGenerating` update
precedes the synthesis call, which receives the slide captured before
that update; on success the image is stored and the immediate next slide
is chained only when it has no image and is not generating; on failure
the target's `isGenerating` is reset, the alert fires, and no chaining
happens. -/
def generateSingleSlideImage
    (synth : SlidePlan → String → Except String String) (designSystem : String) :
    Nat → List SlidePlan → Nat → Bool → OrchResult
  | 0, slides, _, _ => ⟨slides, [], []⟩
  | fuel + 1, slides, id, autoChain =>
    let skip :=
      autoChain &&
        (match slides.find? (fun s => s.id == id) with
         | some t => t.generatedImageUrl.isSome || t.isGenerating
         | none => false)
    if skip then
      match jsFindIndex (fun s => s.id == id) slides with
      | none => ⟨slides, [], []⟩
      | some i =>
        match slides.get? (i + 1) with
        | none => ⟨slides, [], []⟩
        | some nxt => generateSingleSlideImage synth designSystem fuel slides nxt.id true
    else
      match jsFindIndex (fun s => s.id == id) slides with
      | none => ⟨slides, [], []⟩
      | some i =>
        match slides.get? i with
        | none => ⟨slides, [], []⟩
        | some slide =>
          let slides1 := slides.map (fun s =>
            if s.id == id then { s with isGenerating := true } else s)
          match synth slide designSystem with
          | .ok url =>
            let slides2 := slides1.map (fun s =>
              if s.id == id then
                { s with generatedImageUrl := some url, isGenerating := false }
              else s)
            if autoChain then
              match jsFindIndex (fun s => s.id == id) slides2 with
              | none => ⟨slides2, [id], []⟩
              | some fi =>
                match slides2.get? (fi + 1) with
                | none => ⟨slides2, [id], []⟩
                | some nxt =>
                  if nxt.generatedImageUrl.isNone && !nxt.isGenerating then
                    let rest := generateSingleSlideImage synth designSystem fuel slides2 nxt.id true
                    ⟨rest.slides, id :: rest.log, rest.alerts⟩
                  else ⟨slides2, [id], []⟩
            else ⟨slides2, [id], []⟩
          | .error _ =>
            ⟨slides1.map (fun s =>
              if s.id == id then { s with isGenerating := false } else s),
             [id], [id]⟩

theorem jsFindIndex_map_of_pres {α : Type} (p : α → Bool) (f : α → α)
    (hf : ∀ s, p (f s) = p s) :
    ∀ l : List α, jsFindIndex p (l.map f) = jsFindIndex p l := by
  intro l
  induction l with
  | nil => rfl
  | cons a rest ih =>
    simp only [List.map_cons, jsFindIndex, hf a, ih]

theorem jsFindIndex_get {α : Type} (p : α → Bool) :
    ∀ (l : List α) (i : Nat), jsFindIndex p l = some i →
      ∃ x, l.get? i = some x ∧ p x = true := by
  intro l
  induction l with
  | nil => intro i h; cases h
  | cons a rest ih =>
    intro i h
    unfold jsFindIndex at h
    by_cases hp : p a
    · rw [if_pos hp] at h
      cases h
      exact ⟨a, rfl, hp⟩
    · rw [if_neg hp] at h
      rcases Option.map_eq_some'.mp h with ⟨j, hj, rfl⟩
      obtain ⟨x, hx, hpx⟩ := ih j hj
      exact ⟨x, hx, hpx⟩

theorem jsFindIndex_of_get_nodup :
    ∀ (l : List SlidePlan) (k : Nat) (x : SlidePlan),
      (l.map (fun s => s.id)).Nodup → l.get? k = some x →
      jsFindIndex (fun s => s.id == x.id) l = some k := by
  intro l
  induction l with
  | nil => intro k x _ h; cases h
  | cons a rest ih =>
    intro k x hnd hget
    cases k with
    | zero =>
      cases hget
      unfold jsFindIndex
      rw [if_pos (by simp)]
    | succ k =>
      have hxmem : x ∈ rest := List.get?_mem hget
      have hna : a.id ∉ rest.map (fun s => s.id) := by
        simp only [List.map_cons, List.nodup_cons] at hnd
        exact hnd.1
      have hpa : (a.id == x.id) = false := by
        apply beq_eq_false_iff_ne.mpr
        intro hax
        exact hna (hax ▸ List.mem_map.mpr ⟨x, hxmem, rfl⟩)
      unfold jsFindIndex
      rw [hpa]
      simp only [Bool.false_eq_true, if_false]
      have hrest : (rest.map (fun s => s.id)).Nodup := by
        simp only [List.map_cons, List.nodup_cons] at hnd
        exact hnd.2
      rw [ih k x hrest hget]
      rfl

theorem find?_of_jsFindIndex {α : Type} (p : α → Bool) :
    ∀ (l : List α) (i : Nat) (x : α),
      jsFindIndex p l = some i → l.get? i = some x → l.find? p = some x := by
  intro l
  induction l with
  | nil => intro i x h; cases h
  | cons a rest ih =>
    intro i x h hget
    unfold jsFindIndex at h
    by_cases hp : p a
    · rw [if_pos hp] at h
      cases h
      cases hget
      simp [List.find?, hp]
    · rw [if_neg hp] at h
      rcases Option.map_eq_some'.mp h with ⟨j, hj, rfl⟩
      have : rest.get? j = some x := hget
      simp only [List.find?]
      rw [Bool.of_not_eq_true hp]
      exact ih j x hj this

theorem nodup_get_not_mem_drop :
    ∀ (L : List Nat) (i : Nat) (a : Nat),
      L.Nodup → L.get? i = some a → a ∉ L.drop (i + 1) := by
  intro L
  induction L with
  | nil => intro i a _ h; cases h
  | cons b rest ih =>
    intro i a hnd hget
    cases i with
    | zero =>
      cases hget
      simp only [List.drop_succ_cons, List.drop_zero]
      exact (List.nodup_cons.mp hnd).1
    | succ i =>
      simp only [List.drop_succ_cons]
      exact ih i a (List.nodup_cons.mp hnd).2 hget

theorem drop_get_cons {α : Type} :
    ∀ (l : List α) (i : Nat) (x : α),
      l.get? i = some x → l.drop i = x :: l.drop (i + 1) := by
  intro l
  induction l with
  | nil => intro i x h; cases h
  | cons a rest ih =>
    intro i x h
    cases i with
    | zero =>
      cases h
      simp
    | succ i =>
      simp only [List.drop_succ_cons]
      exact ih i x h

theorem setGen_setDone_map (slides : List SlidePlan) (id : Nat) (url : String) :
    (slides.map (fun s => if s.id == id then { s with isGenerating := true } else s)).map
      (fun s => if s.id == id then
        { s with generatedImageUrl := some url, isGenerating := false } else s) =
    slides.map (fun s => if s.id == id then
      { s with generatedImageUrl := some url, isGenerating := false } else s) := by
  rw [List.map_map]
  apply List.map_congr_left
  intro s _
  cases s with
  | mk sid st sc sv suo sri sgiu sig =>
    by_cases h : (sid == id) = true
    · simp [Function.comp, h]
    · simp [Function.comp, h]

theorem setGen_reset_map (slides : List SlidePlan) (id : Nat) :
    (slides.map (fun s => if s.id == id then { s with isGenerating := true } else s)).map
      (fun s => if s.id == id then { s with isGenerating := false } else s) =
    slides.map (fun s => if s.id == id then { s with isGenerating := false } else s) := by
  rw [List.map_map]
  apply List.map_congr_left
  intro s _
  cases s with
  | mk sid st sc sv suo sri sgiu sig =>
    by_cases h : (sid == id) = true
    · simp [Function.comp, h]
    · simp [Function.comp, h]

theorem setDone_id (id : Nat) (url : String) (s : SlidePlan) :
    ((fun s => if s.id == id then
      { s with generatedImageUrl := some url, isGenerating := false } else s) s).id = s.id := by
  cases s with
  | mk sid st sc sv suo sri sgiu sig =>
    by_cases h : (sid == id) = true
    · simp [h]
    · simp [h]

theorem map_ids_of_pres (f : SlidePlan → SlidePlan) (hf : ∀ s, (f s).id = s.id) :
    ∀ l : List SlidePlan, (l.map f).map (fun s => s.id) = l.map (fun s => s.id) := by
  intro l
  rw [List.map_map]
  exact List.map_congr_left (fun s _ => hf s)

theorem generateOne_skip (synth : SlidePlan → String → Except String String)
    (ds : String) (fuel : Nat) (slides : List SlidePlan) (id i : Nat) (t : SlidePlan)
    (hfi : jsFindIndex (fun s => s.id == id) slides = some i)
    (hget : slides.get? i = some t)
    (htouch : (t.generatedImageUrl.isSome || t.isGenerating) = true) :
    generateSingleSlideImage synth ds (fuel + 1) slides id true =
      (match slides.get? (i + 1) with
       | none => ⟨slides, [], []⟩
       | some nxt => generateSingleSlideImage synth ds fuel slides nxt.id true) := by
  have hfind : slides.find? (fun s => s.id == id) = some t :=
    find?_of_jsFindIndex _ slides i t hfi hget
  conv_lhs => unfold generateSingleSlideImage
  dsimp only
  rw [hfind]
  dsimp only
  rw [htouch]
  simp only [Bool.true_and, if_true]
  rw [hfi]

theorem generateOne_ok (synth : SlidePlan → String → Except String String)
    (ds : String) (fuel : Nat) (slides : List SlidePlan) (id i : Nat)
    (slide : SlidePlan) (url : String) (autoChain : Bool)
    (hfi : jsFindIndex (fun s => s.id == id) slides = some i)
    (hget : slides.get? i = some slide)
    (hgen : slide.generatedImageUrl = none)
    (hig : slide.isGenerating = false)
    (hok : synth slide ds = .ok url) :
    generateSingleSlideImage synth ds (fuel + 1) slides id autoChain =
      (if autoChain then
        match (slides.map (fun s => if s.id == id then
            { s with generatedImageUrl := some url, isGenerating := false } else s)).get? (i + 1) with
        | none =>
          ⟨slides.map (fun s => if s.id == id then
            { s with generatedImageUrl := some url, isGenerating := false } else s), [id], []⟩
        | some nxt =>
          if nxt.generatedImageUrl.isNone && !nxt.isGenerating then
            let rest := generateSingleSlideImage synth ds fuel
              (slides.map (fun s => if s.id == id then
                { s with generatedImageUrl := some url, isGenerating := false } else s)) nxt.id true
            ⟨rest.slides, id :: rest.log, rest.alerts⟩
          else
            ⟨slides.map (fun s => if s.id == id then
              { s with generatedImageUrl := some url, isGenerating := false } else s), [id], []⟩
      else
        ⟨slides.map (fun s => if s.id == id then
          { s with generatedImageUrl := some url, isGenerating := false } else s), [id], []⟩) := by
  have hfind : slides.find? (fun s => s.id == id) = some slide :=
    find?_of_jsFindIndex _ slides i slide hfi hget
  have hskipf : (autoChain &&
      (match slides.find? (fun s => s.id == id) with
       | some t => t.generatedImageUrl.isSome || t.isGenerating
       | none => false)) = false := by
    rw [hfind]
    simp [hgen, hig]
  conv_lhs => unfold generateSingleSlideImage
  dsimp only
  rw [hskipf]
  simp only [Bool.false_eq_true, if_false]
  rw [hfi]
  dsimp only
  rw [hget]
  dsimp only
  rw [hok]
  dsimp only
  rw [setGen_setDone_map]
  rw [jsFindIndex_map_of_pres (fun s => s.id == id) _
    (fun s => by
      dsimp only
      by_cases h : (s.id == id) = true
      · rw [if_pos h]
      · rw [if_neg h]) slides]
  rw [hfi]

theorem generateOne_err (synth : SlidePlan → String → Except String String)
    (ds : String) (fuel : Nat) (slides : List SlidePlan) (id i : Nat)
    (slide : SlidePlan) (e : String) (autoChain : Bool)
    (hfi : jsFindIndex (fun s => s.id == id) slides = some i)
    (hget : slides.get? i = some slide)
    (hunt : autoChain = true → slide.generatedImageUrl = none ∧ slide.isGenerating = false)
    (herr : synth slide ds = .error e) :
    generateSingleSlideImage synth ds (fuel + 1) slides id autoChain =
      ⟨slides.map (fun s => if s.id == id then { s with isGenerating := false } else s),
       [id], [id]⟩ := by
  have hfind : slides.find? (fun s => s.id == id) = some slide :=
    find?_of_jsFindIndex _ slides i slide hfi hget
  have hskipf : (autoChain &&
      (match slides.find? (fun s => s.id == id) with
       | some t => t.generatedImageUrl.isSome || t.isGenerating
       | none => false)) = false := by
    cases autoChain with
    | false => rfl
    | true =>
      obtain ⟨hgen, hig⟩ := hunt rfl
      rw [hfind]
      simp [hgen, hig]
  conv_lhs => unfold generateSingleSlideImage
  dsimp only
  rw [hskipf]
  simp only [Bool.false_eq_true, if_false]
  rw [hfi]
  dsimp only
  rw [hget]
  dsimp only
  rw [herr]
  dsimp only
  rw [setGen_reset_map]

theorem generateOne_manual_log (synth : SlidePlan → String → Except String String)
    (ds : String) (fuel : Nat) (slides : List SlidePlan) (id i : Nat)
    (slide : SlidePlan)
    (hfi : jsFindIndex (fun s => s.id == id) slides = some i)
    (hget : slides.get? i = some slide) :
    (generateSingleSlideImage synth ds (fuel + 1) slides id false).log = [id] := by
  conv_lhs => unfold generateSingleSlideImage
  dsimp only
  simp only [Bool.false_and, Bool.false_eq_true, if_false]
  rw [hfi]
  dsimp only
  rw [hget]
  dsimp only
  cases hs : synth slide ds with
  | ok url => rfl
  | error e => rfl

/-- Claim C1.  On a three-slide deck (distinct ids, data-model
invariant): when all slides are IDLE and the synthesizer succeeds on
each, `generateSingleSlideImage` on the first slide's id with
`autoChain = true` leaves all three slides DONE with their images
stored, issuing the synthesis calls in slide order; and when the
auto-chain target is already DONE or GENERATING it is skipped in favour
of the immediate next slide, transitively landing on the next slide that
is neither DONE nor GENERATING, and stopping unchanged at the end of the
list when no such slide remains. -/
theorem generateOne_auto_chain (synth : SlidePlan → String → Except String String)
    (ds : String) (a b c : SlidePlan) (ua ub uc : String)
    (hab : a.id ≠ b.id) (hac : a.id ≠ c.id) (hbc : b.id ≠ c.id) :
    (a.generatedImageUrl = none → a.isGenerating = false →
     b.generatedImageUrl = none → b.isGenerating = false →
     c.generatedImageUrl = none → c.isGenerating = false →
     synth a ds = .ok ua → synth b ds = .ok ub → synth c ds = .ok uc →
     generateSingleSlideImage synth ds 3 [a, b, c] a.id true =
       ⟨[{ a with generatedImageUrl := some ua, isGenerating := false },
         { b with generatedImageUrl := some ub, isGenerating := false },
         { c with generatedImageUrl := some uc, isGenerating := false }],
        [a.id, b.id, c.id], []⟩) ∧
    ((a.generatedImageUrl.isSome || a.isGenerating) = true →
     ∀ n, generateSingleSlideImage synth ds (n + 1) [a, b, c] a.id true =
       generateSingleSlideImage synth ds n [a, b, c] b.id true) ∧
    ((a.generatedImageUrl.isSome || a.isGenerating) = true →
     (b.generatedImageUrl.isSome || b.isGenerating) = true →
     ∀ n, generateSingleSlideImage synth ds (n + 2) [a, b, c] a.id true =
       generateSingleSlideImage synth ds n [a, b, c] c.id true) ∧
    ((a.generatedImageUrl.isSome || a.isGenerating) = true →
     (b.generatedImageUrl.isSome || b.isGenerating) = true →
     (c.generatedImageUrl.isSome || c.isGenerating) = true →
     ∀ n, generateSingleSlideImage synth ds (n + 3) [a, b, c] a.id true =
       ⟨[a, b, c], [], []⟩) := by
  have hfiA : jsFindIndex (fun s => s.id == a.id) [a, b, c] = some 0 := by
    simp [jsFindIndex]
  have hfiB : jsFindIndex (fun s => s.id == b.id) [a, b, c] = some 1 := by
    simp [jsFindIndex, beq_eq_false_iff_ne.mpr hab]
  have hfiC : jsFindIndex (fun s => s.id == c.id) [a, b, c] = some 2 := by
    simp [jsFindIndex, beq_eq_false_iff_ne.mpr hac, beq_eq_false_iff_ne.mpr hbc]
  refine ⟨?_, ?_, ?_, ?_⟩
  · intro hga hia hgb hib hgc hic hsa hsb hsc
    have hba : b.id ≠ a.id := Ne.symm hab
    have hca : c.id ≠ a.id := Ne.symm hac
    have hcb : c.id ≠ b.id := Ne.symm hbc
    have eba : (b.id == a.id) = false := beq_eq_false_iff_ne.mpr hba
    have eca : (c.id == a.id) = false := beq_eq_false_iff_ne.mpr hca
    have eab : (a.id == b.id) = false := beq_eq_false_iff_ne.mpr hab
    have ecb : (c.id == b.id) = false := beq_eq_false_iff_ne.mpr hcb
    have eac : (a.id == c.id) = false := beq_eq_false_iff_ne.mpr hac
    have ebc : (b.id == c.id) = false := beq_eq_false_iff_ne.mpr hbc
    simp [generateSingleSlideImage, jsFindIndex, List.find?,
      hba, hca, hab, hcb, hac, hbc, eba, eca, eab, ecb, eac, ebc,
      hga, hia, hgb, hib, hgc, hic, hsa, hsb, hsc]
  · intro hta n
    rw [generateOne_skip synth ds n [a, b, c] a.id 0 a hfiA rfl hta]
    rfl
  · intro hta htb n
    rw [generateOne_skip synth ds (n + 1) [a, b, c] a.id 0 a hfiA rfl hta]
    show generateSingleSlideImage synth ds (n + 1) [a, b, c] b.id true = _
    rw [generateOne_skip synth ds n [a, b, c] b.id 1 b hfiB rfl htb]
    rfl
  · intro hta htb htc n
    rw [generateOne_skip synth ds (n + 2) [a, b, c] a.id 0 a hfiA rfl hta]
    show generateSingleSlideImage synth ds (n + 1 + 1) [a, b, c] b.id true = _
    rw [generateOne_skip synth ds (n + 1) [a, b, c] b.id 1 b hfiB rfl htb]
    show generateSingleSlideImage synth ds (n + 1) [a, b, c] c.id true = _
    rw [generateOne_skip synth ds n [a, b, c] c.id 2 c hfiC rfl htc]
    rfl

/-- Witness for C1: a concrete all-IDLE deck with ids 1, 2, 3 and an
always-succeeding synthesizer ends with all three slides DONE in order;
and with slide 1 already generating, the chain skips straight to slide
2. -/
theorem generateOne_auto_chain_witness :
    generateSingleSlideImage (fun _ _ => .ok "u") "ds" 3
      [⟨1, "t1", "c1", "v1", none, none, none, false⟩,
       ⟨2, "t2", "c2", "v2", none, none, none, false⟩,
       ⟨3, "t3", "c3", "v3", none, none, none, false⟩] 1 true =
      ⟨[⟨1, "t1", "c1", "v1", none, none, some "u", false⟩,
        ⟨2, "t2", "c2", "v2", none, none, some "u", false⟩,
        ⟨3, "t3", "c3", "v3", none, none, some "u", false⟩],
       [1, 2, 3], []⟩ ∧
    generateSingleSlideImage (fun _ _ => .ok "u") "ds" 3
      [⟨1, "t1", "c1", "v1", none, none, none, true⟩,
       ⟨2, "t2", "c2", "v2", none, none, none, false⟩,
       ⟨3, "t3", "c3", "v3", none, none, none, false⟩] 1 true =
      generateSingleSlideImage (fun _ _ => .ok "u") "ds" 2
      [⟨1, "t1", "c1", "v1", none, none, none, true⟩,
       ⟨2, "t2", "c2", "v2", none, none, none, false⟩,
       ⟨3, "t3", "c3", "v3", none, none, none, false⟩] 2 true := by
  constructor
  · exact (generateOne_auto_chain (fun _ _ => .ok "u") "ds"
      ⟨1, "t1", "c1", "v1", none, none, none, false⟩
      ⟨2, "t2", "c2", "v2", none, none, none, false⟩
      ⟨3, "t3", "c3", "v3", none, none, none, false⟩ "u" "u" "u"
      (by decide) (by decide) (by decide)).1
      rfl rfl rfl rfl rfl rfl rfl rfl rfl
  · exact (generateOne_auto_chain (fun _ _ => .ok "u") "ds"
      ⟨1, "t1", "c1", "v1", none, none, none, true⟩
      ⟨2, "t2", "c2", "v2", none, none, none, false⟩
      ⟨3, "t3", "c3", "v3", none, none, none, false⟩ "u" "u" "u"
      (by decide) (by decide) (by decide)).2.1 rfl 2

/-- Claim C2.  When the synthesis call for the targeted slide fails
(`synth` abstracts the retried `generateSlideImage`, so its error is the
settled post-retry failure), `generateSingleSlideImage` resets exactly
that slide's `isGenerating` flag, stores no image, fires the
user-visible failure alert, and issues no further synthesis call; in a
three-slide all-IDLE deck where slide 2's synthesis fails, slide 1 ends
DONE with its image, slide 2 ends IDLE unchanged, slide 3 is untouched
and never attempted (its id never enters the call log). -/
theorem generateOne_halts_on_failure
    (synth : SlidePlan → String → Except String String) (ds : String)
    (a b c : SlidePlan) (ua e : String)
    (hab : a.id ≠ b.id) (hac : a.id ≠ c.id) (hbc : b.id ≠ c.id) :
    (∀ (fuel : Nat) (slides : List SlidePlan) (id i : Nat) (slide : SlidePlan)
        (e2 : String) (autoChain : Bool),
      jsFindIndex (fun s => s.id == id) slides = some i →
      slides.get? i = some slide →
      (autoChain = true → slide.generatedImageUrl = none ∧ slide.isGenerating = false) →
      synth slide ds = .error e2 →
      generateSingleSlideImage synth ds (fuel + 1) slides id autoChain =
        ⟨slides.map (fun s => if s.id == id then { s with isGenerating := false } else s),
         [id], [id]⟩) ∧
    (a.generatedImageUrl = none → a.isGenerating = false →
     b.generatedImageUrl = none → b.isGenerating = false →
     c.generatedImageUrl = none → c.isGenerating = false →
     synth a ds = .ok ua → synth b ds = .error e →
     generateSingleSlideImage synth ds 3 [a, b, c] a.id true =
       ⟨[{ a with generatedImageUrl := some ua, isGenerating := false }, b, c],
        [a.id, b.id], [b.id]⟩ ∧
     c.id ∉ [a.id, b.id]) := by
  constructor
  · intro fuel slides id i slide e2 autoChain hfi hget hunt herr
    exact generateOne_err synth ds fuel slides id i slide e2 autoChain hfi hget hunt herr
  · intro hga hia hgb hib hgc hic hsa hsb
    have hba : b.id ≠ a.id := Ne.symm hab
    have hca : c.id ≠ a.id := Ne.symm hac
    have hcb : c.id ≠ b.id := Ne.symm hbc
    have eba : (b.id == a.id) = false := beq_eq_false_iff_ne.mpr hba
    have eca : (c.id == a.id) = false := beq_eq_false_iff_ne.mpr hca
    have eab : (a.id == b.id) = false := beq_eq_false_iff_ne.mpr hab
    have ecb : (c.id == b.id) = false := beq_eq_false_iff_ne.mpr hcb
    have eac : (a.id == c.id) = false := beq_eq_false_iff_ne.mpr hac
    have ebc : (b.id == c.id) = false := beq_eq_false_iff_ne.mpr hbc
    have hbeta : SlidePlan.mk b.id b.title b.content b.visualDescription
        b.userPromptOverride b.referenceImage none false = b := by
      rw [← hgb, ← hib]
    constructor
    · simp [generateSingleSlideImage, jsFindIndex, List.find?,
        hba, hca, hab, hcb, hac, hbc, eba, eca, eab, ecb, eac, ebc,
        hga, hia, hgb, hib, hgc, hic, hsa, hsb, hbeta]
    · simp [hca, hcb]

/-- Witness for C2: concrete deck with ids 1, 2, 3, synthesizer failing
exactly on slide 2 — slide 1 DONE, slide 2 back to IDLE with the alert
fired, slide 3 untouched and unattempted. -/
theorem generateOne_halts_on_failure_witness :
    generateSingleSlideImage
      (fun s _ => if s.id = 2 then .error "down" else .ok "u") "ds" 3
      [⟨1, "t1", "c1", "v1", none, none, none, false⟩,
       ⟨2, "t2", "c2", "v2", none, none, none, false⟩,
       ⟨3, "t3", "c3", "v3", none, none, none, false⟩] 1 true =
      ⟨[⟨1, "t1", "c1", "v1", none, none, some "u", false⟩,
        ⟨2, "t2", "c2", "v2", none, none, none, false⟩,
        ⟨3, "t3", "c3", "v3", none, none, none, false⟩],
       [1, 2], [2]⟩ ∧
    (3 : Nat) ∉ [1, 2] := by
  have h := (generateOne_halts_on_failure
    (fun s _ => if s.id = 2 then .error "down" else .ok "u") "ds"
    ⟨1, "t1", "c1", "v1", none, none, none, false⟩
    ⟨2, "t2", "c2", "v2", none, none, none, false⟩
    ⟨3, "t3", "c3", "v3", none, none, none, false⟩ "u" "down"
    (by decide) (by decide) (by decide)).2
    rfl rfl rfl rfl rfl rfl (by simp) (by simp)
  exact h

/-- Every slide id synthesized by an auto-chain run starting at the
slide at position `i` belongs to the deck suffix from position `i`
onwards (the chain only ever moves forward). -/
theorem generateOne_log_mem (synth : SlidePlan → String → Except String String)
    (ds : String) :
    ∀ (fuel : Nat) (slides : List SlidePlan) (id i : Nat),
      (slides.map (fun s => s.id)).Nodup →
      jsFindIndex (fun s => s.id == id) slides = some i →
      ∀ x ∈ (generateSingleSlideImage synth ds fuel slides id true).log,
        x ∈ (slides.drop i).map (fun s => s.id) := by
  intro fuel
  induction fuel with
  | zero =>
    intro slides id i _ _ x hx
    simp [generateSingleSlideImage] at hx
  | succ fuel ih =>
    intro slides id i hnd hfi x hx
    obtain ⟨t, hget, hpt⟩ := jsFindIndex_get _ slides i hfi
    have htid : t.id = id := by simpa using hpt
    by_cases htouch : (t.generatedImageUrl.isSome || t.isGenerating) = true
    · rw [generateOne_skip synth ds fuel slides id i t hfi hget htouch] at hx
      cases hnx : slides.get? (i + 1) with
      | none =>
        rw [hnx] at hx
        simp at hx
      | some nxt =>
        rw [hnx] at hx
        dsimp only at hx
        have hfi2 : jsFindIndex (fun s => s.id == nxt.id) slides = some (i + 1) :=
          jsFindIndex_of_get_nodup slides (i + 1) nxt hnd hnx
        have hsub := ih slides nxt.id (i + 1) hnd hfi2 x hx
        rw [drop_get_cons slides i t hget]
        exact List.mem_cons_of_mem _ hsub
    · have hgen : t.generatedImageUrl = none := by
        cases hg : t.generatedImageUrl with
        | none => rfl
        | some u => exact absurd (by simp [hg]) htouch
      have hig : t.isGenerating = false := by
        cases hg2 : t.isGenerating with
        | false => rfl
        | true => exact absurd (by simp [hg2]) htouch
      cases hs : synth t ds with
      | error e2 =>
        rw [generateOne_err synth ds fuel slides id i t e2 true hfi hget
          (fun _ => ⟨hgen, hig⟩) hs] at hx
        simp at hx
        subst hx
        rw [drop_get_cons slides i t hget]
        simp [htid]
      | ok url =>
        rw [generateOne_ok synth ds fuel slides id i t url true hfi hget hgen hig hs] at hx
        dsimp only at hx
        cases hnx : (slides.map (fun s => if s.id == id then
            { s with generatedImageUrl := some url, isGenerating := false } else s)).get? (i + 1) with
        | none =>
          rw [hnx] at hx
          dsimp only at hx
          simp at hx
          subst hx
          rw [drop_get_cons slides i t hget]
          simp [htid]
        | some nxt =>
          rw [hnx] at hx
          dsimp only at hx
          by_cases hu : (nxt.generatedImageUrl.isNone && !nxt.isGenerating) = true
          · rw [if_pos hu] at hx
            rcases List.mem_cons.mp hx with rfl | hxs
            · rw [drop_get_cons slides i t hget]
              simp [htid]
            · have hpres : ∀ s : SlidePlan,
                  ((fun s => if s.id == id then
                    { s with generatedImageUrl := some url, isGenerating := false } else s) s).id
                    = s.id := by
                intro s
                dsimp only
                by_cases h : (s.id == id) = true
                · rw [if_pos h]
                · rw [if_neg h]
              have hids : ((slides.map (fun s => if s.id == id then
                  { s with generatedImageUrl := some url, isGenerating := false } else s)).map
                    (fun s => s.id)) = slides.map (fun s => s.id) :=
                map_ids_of_pres _ hpres slides
              have hnd2 : ((slides.map (fun s => if s.id == id then
                  { s with generatedImageUrl := some url, isGenerating := false } else s)).map
                    (fun s => s.id)).Nodup := by
                rw [hids]
                exact hnd
              have hfi2 := jsFindIndex_of_get_nodup _ (i + 1) nxt hnd2 hnx
              have hsub := ih _ nxt.id (i + 1) hnd2 hfi2 x hxs
              rw [List.map_drop] at hsub
              rw [hids] at hsub
              rw [← List.map_drop] at hsub
              rw [drop_get_cons slides i t hget]
              exact List.mem_cons_of_mem _ hsub
          · rw [if_neg hu] at hx
            simp at hx
            subst hx
            rw [drop_get_cons slides i t hget]
            simp [htid]

/-- Claim C3 (amended).  The GENERATING check-and-skip guard exists only
on the auto-chain entry path: an auto-chain call whose target is already
DONE or GENERATING never issues a synthesis call for that slide (its id
never enters the call log, for any fuel); the manual
(`autoChain = false`) entry path performs no such check and issues a
synthesis call for the found target unconditionally — even when the
target is already GENERATING — so manual mutual exclusion rests on the
UI layer, not on `generateSingleSlideImage`. -/
theorem generateOne_generating_guard
    (synth : SlidePlan → String → Except String String) (ds : String)
    (slides : List SlidePlan) (id i fuel : Nat) (t : SlidePlan) :
    ((slides.map (fun s => s.id)).Nodup →
     jsFindIndex (fun s => s.id == id) slides = some i →
     slides.get? i = some t →
     (t.generatedImageUrl.isSome || t.isGenerating) = true →
     id ∉ (generateSingleSlideImage synth ds fuel slides id true).log) ∧
    (jsFindIndex (fun s => s.id == id) slides = some i →
     slides.get? i = some t →
     1 ≤ fuel →
     (generateSingleSlideImage synth ds fuel slides id false).log = [id]) := by
  constructor
  · intro hnd hfi hget htouch
    cases fuel with
    | zero => simp [generateSingleSlideImage]
    | succ fuel =>
      obtain ⟨x, hgx, hpx⟩ := jsFindIndex_get _ slides i hfi
      rw [hget] at hgx
      cases hgx
      have htid : t.id = id := by simpa using hpx
      rw [generateOne_skip synth ds fuel slides id i t hfi hget htouch]
      cases hnx : slides.get? (i + 1) with
      | none => simp
      | some nxt =>
        dsimp only
        intro hmem
        have hfi2 : jsFindIndex (fun s => s.id == nxt.id) slides = some (i + 1) :=
          jsFindIndex_of_get_nodup slides (i + 1) nxt hnd hnx
        have hsub := generateOne_log_mem synth ds fuel slides nxt.id (i + 1)
          hnd hfi2 id hmem
        have hLid : (slides.map (fun s => s.id)).get? i = some id := by
          rw [List.get?_map, hget]
          simp [htid]
        have hnot := nodup_get_not_mem_drop (slides.map (fun s => s.id)) i id hnd hLid
        rw [List.map_drop] at hsub
        exact hnot hsub
  · intro hfi hget hfuel
    obtain ⟨f, rfl⟩ : ∃ f, fuel = f + 1 := ⟨fuel - 1, by omega⟩
    exact generateOne_manual_log synth ds f slides id i t hfi hget

/-- Witness for the amended C3: in a two-slide deck whose first slide is
GENERATING, an auto-chain call on slide 1 never synthesizes slide 1; a
manual call on the same deck synthesizes slide 1 unconditionally. -/
theorem generateOne_generating_guard_witness :
    (1 : Nat) ∉ (generateSingleSlideImage (fun _ _ => .ok "u") "ds" 2
      [⟨1, "t1", "c1", "v1", none, none, none, true⟩,
       ⟨2, "t2", "c2", "v2", none, none, none, false⟩] 1 true).log ∧
    (generateSingleSlideImage (fun _ _ => .ok "u") "ds" 2
      [⟨1, "t1", "c1", "v1", none, none, none, true⟩,
       ⟨2, "t2", "c2", "v2", none, none, none, false⟩] 1 false).log = [1] := by
  constructor
  · exact (generateOne_generating_guard (fun _ _ => .ok "u") "ds"
      [⟨1, "t1", "c1", "v1", none, none, none, true⟩,
       ⟨2, "t2", "c2", "v2", none, none, none, false⟩] 1 0 2
      ⟨1, "t1", "c1", "v1", none, none, none, true⟩).1
      (by decide) (by simp [jsFindIndex]) rfl rfl
  · exact (generateOne_generating_guard (fun _ _ => .ok "u") "ds"
      [⟨1, "t1", "c1", "v1", none, none, none, true⟩,
       ⟨2, "t2", "c2", "v2", none, none, none, false⟩] 1 0 2
      ⟨1, "t1", "c1", "v1", none, none, none, true⟩).2
      (by simp [jsFindIndex]) rfl (by omega)

/-- Counterexample to claim C3 as stated: the manual (autoChain = false)
entry path does not check the GENERATING marker — on a deck whose only
slide is currently GENERATING, a manual `generateSingleSlideImage` call
still issues a synthesis call for it (the slide's id enters the call
log), so a user-triggered regenerate can start a second in-flight
synthesis for a slide whose auto-chain call is still running. -/
theorem generateOne_manual_no_guard_cex :
    (⟨1, "t", "c", "v", none, none, none, true⟩ : SlidePlan).isGenerating = true ∧
    (generateSingleSlideImage (fun _ _ => .ok "img") "ds" 1
      [⟨1, "t", "c", "v", none, none, none, true⟩] 1 false).log = [1] :=
  ⟨rfl, rfl⟩
